import Mathlib

/-!
Shallow embedding of the ActivityPub federation core
(`src/activitypub/index.js`): HTTP-Signature signing and verification,
remote key resolution, inbox resolution, keystore access, dispatch.

JavaScript strings are modelled as `List Char` (`Str`); every string
operation used by the source (single-character `split`, the
`split/shift/join` idiom, `slice(0,-1)`, `toLowerCase`, concatenation)
is translated explicitly below.  The cryptographic primitives
(RSA-SHA256 signing, SHA-256 hashing, base64) are modelled ideally:
an injective, comma- and quote-free encoding stands in for
`base64(sha256(x))` and for the signature bytes, which captures
exactly collision resistance of the hash and unforgeability /
determinism of the signature scheme.
-/

instance {ε α : Type} [DecidableEq ε] [DecidableEq α] : DecidableEq (Except ε α) := fun x y =>
  match x, y with
  | .ok a, .ok b => decidable_of_iff (a = b) (by simp)
  | .error a, .error b => decidable_of_iff (a = b) (by simp)
  | .ok _, .error _ => isFalse (by simp)
  | .error _, .ok _ => isFalse (by simp)

namespace ActivityPub

/-- JavaScript strings, modelled as lists of characters. -/
abbrev Str := List Char

/-- Embed a Lean string literal as a `Str`. -/
def str (s : String) : Str := s.data

/-- Model of `String.prototype.split` with a single-character separator:
`"a,b".split(',')` is `["a","b"]`, `"".split(',')` is `[""]`. -/
def splitCharList (sep : Char) : Str → List Str
  | [] => [[]]
  | c :: cs =>
    match splitCharList sep cs with
    | [] => [[]]
    | h :: t => if c = sep then [] :: h :: t else (c :: h) :: t

/-- Model of the idiom `parts = s.split(sep); key = parts.shift();
value = parts.join(sep)` for a multi-character separator: splits `s`
at the first occurrence of `sep`, returning `none` when `sep` does not
occur (in which case JS gives `key = s`, `value = ""`). -/
def splitFirst (sep : Str) : Str → Option (Str × Str)
  | [] => none
  | c :: cs =>
    if sep.isPrefixOf (c :: cs) then some ([], (c :: cs).drop sep.length)
    else
      match splitFirst sep cs with
      | some kv => some (c :: kv.1, kv.2)
      | none => none

/-- `String.prototype.toLowerCase`. -/
def strToLower (s : Str) : Str := s.map Char.toLower

/-! ## Ideal cryptographic primitives

`escEnc` is an executable injective string encoding whose output never
contains `','` or `'"'`.  It stands in for `base64`-encoded
cryptographic output: `escEnc p` models `base64(sha256(p))` (an ideal,
collision-free hash), and `cryptoSign`/`cryptoVerify` model
`crypto.createSign('sha256')`/`createVerify('sha256')` as an ideal
deterministic signature scheme: verification succeeds exactly when the
public key matches the signing private key and the message is the one
signed. -/

/-- Escape a single character: `','`, `'"'` and the escape lead `'c'`
are written as two-character escape sequences, everything else stands
for itself. -/
def escChar (c : Char) : Str :=
  if c = ',' then ['c', 'a']
  else if c = '"' then ['c', 'b']
  else if c = 'c' then ['c', 'c']
  else [c]

/-- Injective comma-free, quote-free encoding (ideal `base64 ∘ sha256`). -/
def escEnc : Str → Str
  | [] => []
  | c :: cs => escChar c ++ escEnc cs

/-- An RSA private key determines its public key; ideally modelled. -/
def derivePublic (priv : Str) : Str := str "public-key-of:" ++ priv

/-- Ideal model of `createSign('sha256')` + `sign(key, 'base64')`. -/
def cryptoSign (priv msg : Str) : Str :=
  escEnc (derivePublic priv) ++ 'c' :: 'd' :: escEnc msg

/-- Ideal model of `createVerify('sha256')` + `verify(pub, sig, 'base64')`. -/
def cryptoVerify (pub sig msg : Str) : Bool :=
  sig == escEnc pub ++ 'c' :: 'd' :: escEnc msg

/-! ## Data model -/

/-- A JSON-like value, the shape of pre-parsed HTTP response bodies. -/
inductive JVal where
  | null
  | jstr (s : Str)
  | jobj (fields : List (Str × JVal))

/-- `body.hasOwnProperty(k)` for a JSON value.  On JSON `null` the
call itself throws a `TypeError` (JavaScript `null` has no properties
and is not boxable); a primitive string is boxed and answers `false`;
an object answers whether it carries the key. -/
def jHasOwn (v : JVal) (k : Str) : Except Str Bool :=
  match v with
  | .null => .error (str "TypeError: Cannot read properties of null (reading 'hasOwnProperty')")
  | .jstr _ => .ok false
  | .jobj fs => .ok (fs.any (fun p => p.1 == k))

/-- `body[k]` for a JSON value (header/property maps have unique keys). -/
def jGet (v : JVal) (k : Str) : Option JVal :=
  match v with
  | .jobj fs => (fs.find? (fun p => p.1 == k)).map (fun p => p.2)
  | _ => none

/-- A JSON object, as used for outbound payloads. -/
abbrev JObj := List (Str × JVal)

/-- The object returned by `ActivityPub.sign`:
`{ date, digest, signature }`, where `digest` is `null` when no
payload was given. -/
structure SignatureHeader where
  date : Str
  digest : Option Str
  signature : Str
deriving DecidableEq, Repr

/-- The slice of an inbound HTTP request read by `ActivityPub.verify`:
method, base path, path, and the header map (an association list with
unique keys; a missing key models an absent header). -/
structure Req where
  method : Str
  baseUrl : Str
  path : Str
  headers : List (Str × Str)

/-- `req.headers.hasOwnProperty(k)`. -/
def hdrHas (hs : List (Str × Str)) (k : Str) : Bool := hs.any (fun p => p.1 == k)

/-- `req.headers[k]` (header maps carry unique keys). -/
def hdrGet (hs : List (Str × Str)) (k : Str) : Option Str :=
  (hs.find? (fun p => p.1 == k)).map (fun p => p.2)

/-- Lookup in the accumulator object built by `reduce` with
`memo[key] = value`: a later assignment to the same key overwrites an
earlier one, so the last binding wins. -/
def assocLast (hs : List (Str × Str)) (k : Str) : Option Str :=
  (hs.reverse.find? (fun p => p.1 == k)).map (fun p => p.2)

/-- `String(response.statusCode).startsWith('2')` (index.js line 72,
174, 210). -/
def statusStartsWith2 (code : Nat) : Bool :=
  List.isPrefixOf (str "2") (Nat.repr code).data

/-! ## Signer (index.js lines 79–117)

`sign(uid, url, payload)`.  The identity is an integer (`utils.isNumber`
plus `parseInt` reduce the JavaScript value to one); the URL parser
(`new URL(url)` giving `host` and `pathname`), the instance base URL
(`nconf.get('url')`), the private key for the identity
(`getPrivateKey`), and the current date string
(`new Date().toUTCString()`) are passed as parameters.  The `payload`
parameter is the serialized payload `JSON.stringify(payload)` (`none`
when no payload is given). -/

/-- `keyId` of index.js line 90. -/
def keyIdOf (confUrl : Str) (uid : Int) : Str :=
  confUrl ++ (if 0 < uid then str "/uid/" ++ (toString uid).data else str "/actor") ++ str "#key"

/-- The digest of index.js line 100: `sha-256=` followed by the ideal
`base64(sha256(JSON.stringify(payload)))` of the serialized payload. -/
def digestOf (p : Str) : Str := str "sha-256=" ++ escEnc p

/-- The signed-headers list (index.js lines 93 and 101): the `+= ' digest'`
of line 101 yields the literal written here. -/
def headersListOf (hasPayload : Bool) : Str :=
  if hasPayload then str "(request-target) host date digest"
  else str "(request-target) host date"

/-- The signing string of index.js lines 94 and 102: the base string of
line 94 with the digest line appended by line 102 when a payload is
present. -/
def signedStringOf (method pathname host date : Str) (digest : Option Str) : Str :=
  str "(request-target): " ++ method ++ str " " ++ pathname
    ++ str "\nhost: " ++ host ++ str "\ndate: " ++ date
    ++ (match digest with
        | some dg => str "\ndigest: " ++ dg
        | none => [])

/-- The `Signature` header value of index.js line 115. -/
def sigHeaderValue (keyId headersList sigB64 : Str) : Str :=
  str "keyId=\"" ++ keyId ++ str "\",headers=\"" ++ headersList
    ++ str "\",signature=\"" ++ sigB64 ++ str "\""

def sign (parseUrl : Str → Str × Str) (confUrl priv date : Str) (uid : Int)
    (url : Str) (payload : Option Str) : Except Str SignatureHeader :=
  if uid < 0 then .error (str "[[error:invalid-uid]]")
  else
    let host := (parseUrl url).1
    let pathname := (parseUrl url).2
    match payload with
    | some p =>
      .ok { date := date, digest := some (digestOf p),
            signature := sigHeaderValue (keyIdOf confUrl uid) (headersListOf true)
              (cryptoSign priv
                (signedStringOf (str "post") pathname host date (some (digestOf p)))) }
    | none =>
      .ok { date := date, digest := none,
            signature := sigHeaderValue (keyIdOf confUrl uid) (headersListOf false)
              (cryptoSign priv (signedStringOf (str "get") pathname host date none)) }

/-! ## Verifier (index.js lines 119–157) -/

/-- The `reduce` of index.js lines 125–131: break the signature header
value apart on commas, then split each part at the first `="`,
dropping the trailing quote of the value (`value.slice(0, -1)`); a
part with no `="` contributes its whole text as key and `""` as
value. -/
def parseSigHeader (s : Str) : List (Str × Str) :=
  (splitCharList ',' s).map (fun cur =>
    match splitFirst (str "=\"") cur with
    | some kv => (kv.1, kv.2.dropLast)
    | none => (cur, []))

/-- The `reduce` of index.js lines 134–142: reconstruct the signed
string from the space-separated header-name list. -/
def buildSignedString (req : Req) (headersVal : Str) : Str :=
  List.intercalate (str "\n") ((splitCharList ' ' headersVal).foldl
    (fun memo cur =>
      if cur = str "(request-target)" then
        memo ++ [str "(request-target): " ++ strToLower req.method ++ str " " ++ req.baseUrl ++ req.path]
      else
        match hdrGet req.headers cur with
        | some v => memo ++ [cur ++ str ": " ++ v]
        | none => memo)
    [])

/-- `verify(req)`, with the remote key fetch
(`ActivityPub.fetchPublicKey(keyId)`, index.js line 147) passed in as
`fetchPK` (its argument is `none` when the parsed header had no
`keyId` field, modelling the JavaScript `undefined`).  The result pairs
the outcome — `.error` models an exception escaping `verify`,
`.ok b` a returned boolean — with the list of key-fetch calls issued,
so that "no network call" is a provable statement.  The `try` block of
lines 145–156 covers only the key fetch and the cryptographic check;
the header parsing and the signed-string reconstruction run before
it, so a parsed header with no `headers` field makes
`headers.split(' ')` (line 134) throw a `TypeError` that `verify` does
not catch. -/
def verify (fetchPK : Option Str → Except Str JVal) (req : Req) :
    Except Str Bool × List (Option Str) :=
  if !hdrHas req.headers (str "signature") then (.ok false, [])
  else
    let parsed := parseSigHeader ((hdrGet req.headers (str "signature")).getD [])
    let keyId := assocLast parsed (str "keyId")
    let headersVal := assocLast parsed (str "headers")
    let signature := assocLast parsed (str "signature")
    match headersVal with
    | none => (.error (str "TypeError: Cannot read properties of undefined (reading 'split')"), [])
    | some hv =>
      let signed_string := buildSignedString req hv
      let attempt : Except Str Bool :=
        match fetchPK keyId with
        | .error e => .error e
        | .ok pk =>
          match jGet pk (str "publicKeyPem"), signature with
          | some (.jstr pem), some sig => .ok (cryptoVerify pem sig signed_string)
          | _, _ => .error (str "crypto error")
      (match attempt with
       | .ok b => .ok b
       | .error _ => .ok false, [keyId])

/-! ## Remote key resolver (index.js lines 64–77) -/

/-- An HTTP response as seen by this core: a status code and a
pre-parsed JSON body. -/
structure HttpRes where
  statusCode : Nat
  body : JVal

/-- `fetchPublicKey` (index.js lines 64–77).  The condition of line 72
is `!String(response.statusCode).startsWith('2') ||
!body.hasOwnProperty('publicKey')`: `||` short-circuits, so on a
non-2xx status the property check is never evaluated; on a 2xx status
`body.hasOwnProperty` is evaluated and may itself throw (a JSON-`null`
body), in which case that `TypeError` — not the `pubKey-not-found`
error — escapes `fetchPublicKey`. -/
def fetchPublicKey (net : Str → Except Str HttpRes) (uri : Str) : Except Str JVal :=
  match net uri with
  | .error e => .error e
  | .ok r =>
    if !statusStartsWith2 r.statusCode then
      .error (str "[[error:activitypub.pubKey-not-found]]")
    else
      match jHasOwn r.body (str "publicKey") with
      | .error e => .error e
      | .ok hasPK =>
        if !hasPK then
          .error (str "[[error:activitypub.pubKey-not-found]]")
        else
          .ok ((jGet r.body (str "publicKey")).getD .null)

/-! ## Inbox resolver (index.js lines 26–38)

`resolveInboxes(ids)` first asserts actor records (an external,
record-creating side effect with no bearing on the returned value) and
then, per id, reads the `inbox`/`sharedInbox` user fields and adds
`sharedInbox || inbox` to a `Set` when that expression is truthy.  The
field store is the `fields` parameter; a falsy (absent or empty)
field is `none`. -/

/-- The `inbox` and `sharedInbox` user fields of one identifier. -/
structure UserFields where
  inbox : Option Str
  sharedInbox : Option Str

/-- `sharedInbox || inbox` (index.js lines 32–33). -/
def preferredInbox (u : UserFields) : Option Str :=
  match u.sharedInbox with
  | some s => some s
  | none => u.inbox

/-- `Set.prototype.add` on a duplicate-free list. -/
def setAdd (l : List Str) (x : Str) : List Str :=
  if x ∈ l then l else l ++ [x]

def resolveInboxes (fields : Nat → UserFields) (ids : List Nat) : List Str :=
  ids.foldl
    (fun inboxes id =>
      match preferredInbox (fields id) with
      | some x => setAdd inboxes x
      | none => inboxes)
    []

/-! ## Keystore (index.js lines 40–62)

`db.getObject('uid:<uid>:keys')` is modelled as a partial map from
identity to stored keypair (`db.getObject` rejects when the key is
absent, which is the caught branch). -/

structure Keypair where
  publicKey : Str
  privateKey : Str
deriving DecidableEq, Repr

/-- The external key store, keyed by `uid:<uid>:keys`. -/
def Db := Nat → Option Keypair

/-- Modelled from the spec: `ActivityPub.helpers.generateKeys(uid)`
(required at index.js lines 46 and 58) is not part of the given
sources.  Per spec §3 and §4.1 the keypair is "generated lazily and
persisted by the external data store" and generation is deterministic
per identity for a given generator, so it returns `gen uid` and
persists it under `uid:<uid>:keys`. -/
def generateKeys (gen : Nat → Keypair) (uid : Nat) (db : Db) : Keypair × Db :=
  (gen uid, fun u => if u = uid then some (gen uid) else db u)

def getPublicKey (gen : Nat → Keypair) (uid : Nat) (db : Db) : Str × Db :=
  match db uid with
  | some kp => (kp.publicKey, db)
  | none =>
    let r := generateKeys gen uid db
    (r.1.publicKey, r.2)

def getPrivateKey (gen : Nat → Keypair) (uid : Nat) (db : Db) : Str × Db :=
  match db uid with
  | some kp => (kp.privateKey, db)
  | none =>
    let r := generateKeys gen uid db
    (r.1.privateKey, r.2)

/-! ## Dispatcher (index.js lines 187–215) -/

/-- The envelope of index.js lines 194–198:
`{'@context': ..., actor: ..., ...payload}`.  Object spread appends
the payload's own properties after the two injected ones, and a later
property assignment overwrites an earlier one, so field lookup on the
result is last-binding-wins (`jassocLast`). -/
def sendEnvelope (confUrl : Str) (uid : Int) (payload : JObj) : JObj :=
  [(str "@context", JVal.jstr (str "https://www.w3.org/ns/activitystreams")),
   (str "actor", JVal.jstr (confUrl ++ str "/uid/" ++ (toString uid).data))] ++ payload

/-- Field lookup on an object built by successive property
assignments: the last binding of a key wins. -/
def jassocLast (o : JObj) (k : Str) : Option JVal :=
  (o.reverse.find? (fun p => p.1 == k)).map (fun p => p.2)

/-- `Promise.all` over the per-destination outcomes: the joint promise
rejects (with the first rejection) exactly when some destination
failed. -/
def firstError : List (Except Str Unit) → Except Str Unit
  | [] => .ok ()
  | .ok () :: rest => firstError rest
  | .error e :: _ => .error e

/-- `send(uid, targets, payload)`.  `targets` is already a list (the
`Array.isArray` branch merely wraps a single identifier).  External
collaborators are parameters: the user-field store (`fields`, for
`resolveInboxes`), `JSON.stringify`, the URL parser, the network
(`net uri` = the POST's response status code), the instance base URL,
the signing key and the date.  The result pairs the joint outcome of
`Promise.all` with the list of URIs actually POSTed: every rejected
sibling's request still runs to completion (`Promise.all` does not
cancel in-flight operations), so a URI is only missing from the trace
when its own `sign` threw before the POST was issued. -/
def send (fields : Nat → UserFields) (stringify : JObj → Str) (parseUrl : Str → Str × Str)
    (net : Str → Nat) (confUrl priv date : Str) (uid : Int) (targets : List Nat)
    (payload : JObj) : Except Str Unit × List Str :=
  let inboxes := resolveInboxes fields targets
  let payload2 := sendEnvelope confUrl uid payload
  let outcomes : List (Str × Except Str Unit × Bool) := inboxes.map (fun uri =>
    match sign parseUrl confUrl priv date uid uri (some (stringify payload2)) with
    | .error e => (uri, .error e, false)
    | .ok _ =>
      (uri,
       if statusStartsWith2 (net uri) then .ok () else .error (str "activity-failed"),
       true))
  (firstError (outcomes.map (fun o => o.2.1)),
   (outcomes.filter (fun o => o.2.2)).map (fun o => o.1))

/-! ## Authenticated fetch (index.js lines 159–185)

Only the construction of the outbound request headers (lines 165–172)
is modelled; the request cache and response handling are not needed by
any claim.  `uid` keeps its JavaScript type of a possibly negative
number, since `uid >= 0 ? await ActivityPub.sign(uid, uri) : {}`
distinguishes the sign-free path by sign, and spreading the
`{date, digest, signature}` object of `sign` into the header object
contributes exactly those three keys (`digest` with value `null` when
no payload was signed). -/
def acceptHeader : Str :=
  str "application/ld+json; profile=\"https://www.w3.org/ns/activitystreams\""

def apGetHeaders (parseUrl : Str → Str × Str) (confUrl priv date : Str) (uid : Int)
    (uri : Str) : Except Str (List (Str × Option Str)) :=
  match (if uid ≥ 0 then
      (sign parseUrl confUrl priv date uid uri none).map (fun h =>
        [(str "date", some h.date), (str "digest", h.digest), (str "signature", some h.signature)])
    else .ok []) with
  | .error e => .error e
  | .ok headers => .ok (headers ++ [(str "Accept", some acceptHeader)])

/-- The Verifier's key resolution as the source wires it: `verify`
calls `ActivityPub.fetchPublicKey(keyId)` (index.js line 147); when
the parsed header had no `keyId` field, `request.get(undefined)`
rejects before reaching the network. -/
def verifierResolver (net : Str → Except Str HttpRes) : Option Str → Except Str JVal :=
  fun kid =>
    match kid with
    | some u => fetchPublicKey net u
    | none => .error (str "ERR_INVALID_URL")

/-! ## Canonical verification requests

`mkVReq` builds the inbound request of the round-trip scenario: a
request carrying the given signature header value together with
`host`, `date` and (when present) `digest` headers. -/

def mkVReq (method baseUrl path host date : Str) (digest : Option Str) (sigVal : Str) : Req :=
  { method := method, baseUrl := baseUrl, path := path,
    headers := [(str "signature", sigVal), (str "host", host), (str "date", date)] ++
      (match digest with
       | some d => [(str "digest", d)]
       | none => []) }

/-! ## Concrete fixtures, used by the executable witnesses -/

/-- Fixture: URL parser sending everything to host `h`, path `/p`. -/
def tURL : Str → Str × Str := fun _ => (str "h", str "/p")

/-- Fixture: resolver knowing the key of identity 1 at instance `u`. -/
def tFetch : Option Str → Except Str JVal := fun kid =>
  if kid = some (keyIdOf (str "u") 1) then
    .ok (.jobj [(str "publicKeyPem", .jstr (derivePublic (str "k")))])
  else .error []

/-- Fixture: the header produced by `sign` for a tiny payload. -/
def tHdr : SignatureHeader :=
  ((sign tURL (str "u") (str "k") (str "d") 1 (str "x") (some (str "y"))).toOption).getD
    { date := [], digest := none, signature := [] }

/-- Fixture: the round-trip verification request for `tHdr`. -/
def tReq : Req :=
  { method := str "POST", baseUrl := str "", path := str "/p",
    headers := [(str "signature", tHdr.signature), (str "host", str "h"),
                (str "date", str "d"), (str "digest", (tHdr.digest).getD [])] }

/-- Fixture: `tReq` with the digest header recomputed from a tampered
payload. -/
def tReqTampered : Req :=
  { tReq with headers := [(str "signature", tHdr.signature), (str "host", str "h"),
                          (str "date", str "d"), (str "digest", str "sha-256=" ++ escEnc (str "z"))] }

/-- Fixture: a user-field store where identities 0 and 1 share one
`sharedInbox` while identity 1 also has a personal inbox. -/
def tFields : Nat → UserFields := fun i =>
  if i = 0 then { inbox := none, sharedInbox := some (str "S") }
  else { inbox := some (str "I"), sharedInbox := some (str "S") }

/-- Fixture: an opaque serializer for witness instantiations. -/
def tStringify : JObj → Str := fun _ => str "serialized"

/-- Fixture: a deterministic key generator. -/
def tGen : Nat → Keypair := fun i => { publicKey := str "PUB" ++ (toString i).data,
                                       privateKey := str "PRIV" ++ (toString i).data }

/-- Fixture: an empty key store. -/
def tDb : Db := fun _ => none

end ActivityPub

namespace ActivityPub

example : str "ab" = ['a', 'b'] := rfl
example : splitCharList ',' (str "a,b") = [str "a", str "b"] := rfl
example : splitCharList ',' (str "") = [str ""] := rfl
example : splitFirst (str "=\"") (str "keyId=\"abc\"") = some (str "keyId", str "abc\"") := rfl
example : splitFirst (str "=\"") (str "abc") = none := rfl
example : cryptoVerify (derivePublic (str "k")) (cryptoSign (str "k") (str "m")) (str "m") = true := rfl

set_option maxRecDepth 10000 in
example : (verify tFetch tReq).1 = .ok true := by decide

set_option maxRecDepth 10000 in
example : (verify tFetch tReqTampered).1 = .ok false := by decide

example :
    verify tFetch { method := str "POST", baseUrl := [], path := [],
                    headers := [(str "signature", str "garbage")] } =
      (.error (str "TypeError: Cannot read properties of undefined (reading 'split')"), []) := by
  decide

/-! ## Properties of the ideal encoding and signature scheme -/

theorem escChar_ne_nil (c : Char) : escChar c ≠ [] := by
  unfold escChar
  split
  · simp
  · split
    · simp
    · split <;> simp

theorem comma_not_mem_escChar (c : Char) : ',' ∉ escChar c := by
  unfold escChar
  split
  · decide
  · split
    · decide
    · split
      · decide
      · rename_i h _ _
        simp only [List.mem_singleton]
        exact fun hc => h hc.symm

theorem quote_not_mem_escChar (c : Char) : '"' ∉ escChar c := by
  unfold escChar
  split
  · decide
  · split
    · decide
    · split
      · decide
      · rename_i _ h _
        simp only [List.mem_singleton]
        exact fun hc => h hc.symm

theorem comma_not_mem_escEnc (l : Str) : ',' ∉ escEnc l := by
  induction l with
  | nil => simp [escEnc]
  | cons c cs ih =>
    simp only [escEnc, List.mem_append]
    exact fun h => h.elim (comma_not_mem_escChar c) ih

theorem quote_not_mem_escEnc (l : Str) : '"' ∉ escEnc l := by
  induction l with
  | nil => simp [escEnc]
  | cons c cs ih =>
    simp only [escEnc, List.mem_append]
    exact fun h => h.elim (quote_not_mem_escChar c) ih

theorem escChar_append_inj (c d : Char) (r1 r2 : Str)
    (h : escChar c ++ r1 = escChar d ++ r2) : c = d ∧ r1 = r2 := by
  by_cases hc1 : c = ',' <;> by_cases hc2 : c = '"' <;> by_cases hc3 : c = 'c' <;>
    by_cases hd1 : d = ',' <;> by_cases hd2 : d = '"' <;> by_cases hd3 : d = 'c' <;>
    subst_vars <;> simp_all [escChar] <;> tauto

theorem escEnc_inj (l1 : Str) : ∀ l2 : Str, escEnc l1 = escEnc l2 → l1 = l2 := by
  induction l1 with
  | nil =>
    intro l2 h
    cases l2 with
    | nil => rfl
    | cons d ds =>
      exfalso
      have : escChar d ++ escEnc ds = [] := h.symm
      rcases List.append_eq_nil.mp this with ⟨h1, _⟩
      exact escChar_ne_nil d h1
  | cons c cs ih =>
    intro l2 h
    cases l2 with
    | nil =>
      exfalso
      have : escChar c ++ escEnc cs = [] := h
      rcases List.append_eq_nil.mp this with ⟨h1, _⟩
      exact escChar_ne_nil c h1
    | cons d ds =>
      obtain ⟨hcd, hrest⟩ := escChar_append_inj c d _ _ h
      rw [hcd, ih ds hrest]

theorem cryptoSign_comma_free (priv msg : Str) : ',' ∉ cryptoSign priv msg := by
  simp only [cryptoSign, List.mem_append, List.mem_cons]
  rintro (h | h | h | h)
  · exact comma_not_mem_escEnc _ h
  · exact absurd h (by decide)
  · exact absurd h (by decide)
  · exact comma_not_mem_escEnc _ h

theorem cryptoVerify_sign_self (priv m : Str) :
    cryptoVerify (derivePublic priv) (cryptoSign priv m) m = true := by
  simp [cryptoVerify, cryptoSign]

theorem cryptoVerify_sign_ne (priv m m' : Str) (h : m' ≠ m) :
    cryptoVerify (derivePublic priv) (cryptoSign priv m) m' = false := by
  simp only [cryptoVerify, cryptoSign, beq_eq_false_iff_ne, ne_eq]
  intro heq
  have h2 := List.append_cancel_left heq
  simp only [List.cons.injEq, true_and] at h2
  exact h (escEnc_inj _ _ h2).symm

/-! ## Properties of the string splitters -/

theorem splitCharList_cons (sep c : Char) (cs : Str) :
    splitCharList sep (c :: cs) =
      match splitCharList sep cs with
      | [] => [[]]
      | h :: t => if c = sep then [] :: h :: t else (c :: h) :: t := rfl

theorem splitCharList_ne_nil (sep : Char) (l : Str) : splitCharList sep l ≠ [] := by
  cases l with
  | nil => simp [splitCharList]
  | cons c cs =>
    rw [splitCharList_cons]
    split
    · simp
    · split <;> simp

theorem splitCharList_not_mem (sep : Char) (l : Str) (h : sep ∉ l) :
    splitCharList sep l = [l] := by
  induction l with
  | nil => rfl
  | cons c cs ih =>
    have hc : ¬(c = sep) := fun e => h (e ▸ List.mem_cons_self c cs)
    have hcs : sep ∉ cs := fun m => h (List.mem_cons_of_mem _ m)
    rw [splitCharList_cons, ih hcs]
    simp [hc]

theorem splitCharList_append_sep (sep : Char) (l1 l2 : Str) (h : sep ∉ l1) :
    splitCharList sep (l1 ++ sep :: l2) = l1 :: splitCharList sep l2 := by
  induction l1 with
  | nil =>
    simp only [List.nil_append]
    obtain ⟨h0, t0, ht⟩ := List.exists_cons_of_ne_nil (splitCharList_ne_nil sep l2)
    rw [splitCharList_cons, ht]
    simp
  | cons c cs ih =>
    have hc : ¬(c = sep) := fun e => h (e ▸ List.mem_cons_self c cs)
    have hcs : sep ∉ cs := fun m => h (List.mem_cons_of_mem _ m)
    simp only [List.cons_append]
    rw [splitCharList_cons, ih hcs]
    simp [hc]

theorem splitFirst_marker (pre rest : Str) (h : '=' ∉ pre) :
    splitFirst (str "=\"") (pre ++ '=' :: '"' :: rest) = some (pre, rest) := by
  induction pre with
  | nil => simp [splitFirst, List.isPrefixOf, str]
  | cons c cs ih =>
    have hc : ¬('=' = c) := fun e => h (e ▸ List.mem_cons_self c cs)
    have hcs : '=' ∉ cs := fun m => h (List.mem_cons_of_mem _ m)
    simp only [List.cons_append]
    unfold splitFirst
    have hpre : List.isPrefixOf (str "=\"") (c :: (cs ++ '=' :: '"' :: rest)) = false := by
      simp [str, List.isPrefixOf, hc]
    rw [hpre]
    simp [ih hcs]

/-- Parsing the signature header value produced by `sign` recovers the
three fields, as long as none of them contains a comma. -/
theorem parseSigHeader_value (K H S : Str) (hK : ',' ∉ K) (hH : ',' ∉ H) (hS : ',' ∉ S) :
    parseSigHeader (sigHeaderValue K H S) =
      [(str "keyId", K), (str "headers", H), (str "signature", S)] := by
  have e1 : sigHeaderValue K H S =
      (str "keyId=\"" ++ K ++ ['"']) ++
        ',' :: ((str "headers=\"" ++ H ++ ['"']) ++
          ',' :: (str "signature=\"" ++ S ++ ['"'])) := by
    have a1 : str "\",headers=\"" = '"' :: ',' :: str "headers=\"" := rfl
    have a2 : str "\",signature=\"" = '"' :: ',' :: str "signature=\"" := rfl
    have a3 : str "\"" = ['"'] := rfl
    rw [sigHeaderValue, a1, a2, a3]
    simp [List.append_assoc, List.cons_append, List.singleton_append]
  have m1 : ',' ∉ str "keyId=\"" ++ K ++ ['"'] := by
    simp only [List.mem_append, List.mem_singleton]
    rintro ((h | h) | h)
    · exact absurd h (by decide)
    · exact hK h
    · exact absurd h (by decide)
  have m2 : ',' ∉ str "headers=\"" ++ H ++ ['"'] := by
    simp only [List.mem_append, List.mem_singleton]
    rintro ((h | h) | h)
    · exact absurd h (by decide)
    · exact hH h
    · exact absurd h (by decide)
  have m3 : ',' ∉ str "signature=\"" ++ S ++ ['"'] := by
    simp only [List.mem_append, List.mem_singleton]
    rintro ((h | h) | h)
    · exact absurd h (by decide)
    · exact hS h
    · exact absurd h (by decide)
  have esplit : splitCharList ',' (sigHeaderValue K H S) =
      [str "keyId=\"" ++ K ++ ['"'], str "headers=\"" ++ H ++ ['"'],
       str "signature=\"" ++ S ++ ['"']] := by
    rw [e1, splitCharList_append_sep _ _ _ m1, splitCharList_append_sep _ _ _ m2,
        splitCharList_not_mem _ _ m3]
  have p1 : splitFirst (str "=\"") (str "keyId=\"" ++ K ++ ['"']) =
      some (str "keyId", K ++ ['"']) := by
    have : str "keyId=\"" ++ K ++ ['"'] = str "keyId" ++ '=' :: '"' :: (K ++ ['"']) := by
      have b1 : str "keyId=\"" = str "keyId" ++ ['=', '"'] := rfl
      rw [b1]
      simp [List.append_assoc]
    rw [this]
    exact splitFirst_marker _ _ (by decide)
  have p2 : splitFirst (str "=\"") (str "headers=\"" ++ H ++ ['"']) =
      some (str "headers", H ++ ['"']) := by
    have : str "headers=\"" ++ H ++ ['"'] = str "headers" ++ '=' :: '"' :: (H ++ ['"']) := by
      have b1 : str "headers=\"" = str "headers" ++ ['=', '"'] := rfl
      rw [b1]
      simp [List.append_assoc]
    rw [this]
    exact splitFirst_marker _ _ (by decide)
  have p3 : splitFirst (str "=\"") (str "signature=\"" ++ S ++ ['"']) =
      some (str "signature", S ++ ['"']) := by
    have : str "signature=\"" ++ S ++ ['"'] = str "signature" ++ '=' :: '"' :: (S ++ ['"']) := by
      have b1 : str "signature=\"" = str "signature" ++ ['=', '"'] := rfl
      rw [b1]
      simp [List.append_assoc]
    rw [this]
    exact splitFirst_marker _ _ (by decide)
  rw [parseSigHeader, esplit]
  simp only [List.map_cons, List.map_nil]
  rw [p1, p2, p3]
  simp [List.dropLast_concat]

/-! ## Evaluation of the signed-string reconstruction -/

theorem intercalate4 (A B C D : Str) :
    List.intercalate (str "\n") [A, B, C, D] =
      A ++ str "\n" ++ B ++ str "\n" ++ C ++ str "\n" ++ D := by
  simp [List.intercalate, List.intersperse, List.append_assoc]

theorem intercalate3 (A B C : Str) :
    List.intercalate (str "\n") [A, B, C] = A ++ str "\n" ++ B ++ str "\n" ++ C := by
  simp [List.intercalate, List.intersperse, List.append_assoc]

theorem glue_host (X : Str) :
    str "\n" ++ (str "host" ++ (str ": " ++ X)) = str "\nhost: " ++ X := by
  rw [← List.append_assoc, ← List.append_assoc]
  rfl

theorem glue_date (X : Str) :
    str "\n" ++ (str "date" ++ (str ": " ++ X)) = str "\ndate: " ++ X := by
  rw [← List.append_assoc, ← List.append_assoc]
  rfl

theorem glue_digest (X : Str) :
    str "\n" ++ (str "digest" ++ (str ": " ++ X)) = str "\ndigest: " ++ X := by
  rw [← List.append_assoc, ← List.append_assoc]
  rfl

/-- Reconstruction over the canonical request recovers exactly the
string `sign` signed (digest-bearing case), for the digest value the
request's `digest` header carries. -/
theorem buildSignedString_digest (method baseUrl path host date d sv : Str) :
    buildSignedString (mkVReq method baseUrl path host date (some d) sv)
      (str "(request-target) host date digest") =
    signedStringOf (strToLower method) (baseUrl ++ path) host date (some d) := by
  have e : buildSignedString (mkVReq method baseUrl path host date (some d) sv)
      (str "(request-target) host date digest") =
    List.intercalate (str "\n")
      [str "(request-target): " ++ strToLower method ++ str " " ++ baseUrl ++ path,
       str "host" ++ str ": " ++ host,
       str "date" ++ str ": " ++ date,
       str "digest" ++ str ": " ++ d] := rfl
  rw [e, intercalate4, signedStringOf]
  simp only [List.append_assoc]
  rw [glue_host, glue_date, glue_digest]

/-- Reconstruction over the canonical request recovers exactly the
string `sign` signed (digest-free case). -/
theorem buildSignedString_plain (method baseUrl path host date sv : Str) :
    buildSignedString (mkVReq method baseUrl path host date none sv)
      (str "(request-target) host date") =
    signedStringOf (strToLower method) (baseUrl ++ path) host date none := by
  have e : buildSignedString (mkVReq method baseUrl path host date none sv)
      (str "(request-target) host date") =
    List.intercalate (str "\n")
      [str "(request-target): " ++ strToLower method ++ str " " ++ baseUrl ++ path,
       str "host" ++ str ": " ++ host,
       str "date" ++ str ": " ++ date] := rfl
  rw [e, intercalate3, signedStringOf]
  simp only [List.append_assoc]
  rw [glue_host, glue_date]
  simp

/-! ## Evaluation of `verify` -/

/-- Evaluating `verify` on a request whose signature header is the
well-formed value `sigHeaderValue K H S`: the header is parsed back
apart, the key is fetched for `keyId`, and the result is the
cryptographic check of the reconstructed string. -/
theorem verify_eval (fetchPK : Option Str → Except Str JVal) (req : Req)
    (K H S : Str) (pk : JVal) (pem : Str)
    (hhas : hdrHas req.headers (str "signature") = true)
    (hsig : hdrGet req.headers (str "signature") = some (sigHeaderValue K H S))
    (hK : ',' ∉ K) (hH : ',' ∉ H) (hS : ',' ∉ S)
    (hf : fetchPK (some K) = .ok pk)
    (hpem : jGet pk (str "publicKeyPem") = some (.jstr pem)) :
    verify fetchPK req = (.ok (cryptoVerify pem S (buildSignedString req H)), [some K]) := by
  rw [verify, hsig]
  simp only [hhas, Bool.not_true, Bool.false_eq_true, if_false, Option.getD_some]
  rw [parseSigHeader_value K H S hK hH hS]
  have a1 : assocLast [(str "keyId", K), (str "headers", H), (str "signature", S)]
      (str "keyId") = some K := rfl
  have a2 : assocLast [(str "keyId", K), (str "headers", H), (str "signature", S)]
      (str "headers") = some H := rfl
  have a3 : assocLast [(str "keyId", K), (str "headers", H), (str "signature", S)]
      (str "signature") = some S := rfl
  rw [a1, a2, a3]
  simp only [hf, hpem]

/-- Evaluating `verify` when the key fetch fails: the exception is
caught by the `try`/`catch` of index.js lines 145–156 and the result
is `false`. -/
theorem verify_fetch_error (fetchPK : Option Str → Except Str JVal) (req : Req)
    (K H S e : Str)
    (hhas : hdrHas req.headers (str "signature") = true)
    (hsig : hdrGet req.headers (str "signature") = some (sigHeaderValue K H S))
    (hK : ',' ∉ K) (hH : ',' ∉ H) (hS : ',' ∉ S)
    (hf : fetchPK (some K) = .error e) :
    verify fetchPK req = (.ok false, [some K]) := by
  rw [verify, hsig]
  simp only [hhas, Bool.not_true, Bool.false_eq_true, if_false, Option.getD_some]
  rw [parseSigHeader_value K H S hK hH hS]
  have a1 : assocLast [(str "keyId", K), (str "headers", H), (str "signature", S)]
      (str "keyId") = some K := rfl
  have a2 : assocLast [(str "keyId", K), (str "headers", H), (str "signature", S)]
      (str "headers") = some H := rfl
  rw [a1, a2]
  simp only [hf]

/-- Evaluating `sign` for a valid (non-negative) identity. -/
theorem sign_ok (parseUrl : Str → Str × Str) (confUrl priv date : Str) (uid : Int)
    (url : Str) (payload : Option Str) (h : 0 ≤ uid) :
    sign parseUrl confUrl priv date uid url payload = .ok
      { date := date,
        digest := payload.map digestOf,
        signature := sigHeaderValue (keyIdOf confUrl uid) (headersListOf payload.isSome)
          (cryptoSign priv
            (signedStringOf (if payload.isSome then str "post" else str "get")
              (parseUrl url).2 (parseUrl url).1 date (payload.map digestOf))) } := by
  have hn : ¬uid < 0 := not_lt.mpr h
  cases payload <;> simp [sign, hn, headersListOf]

/-- The signing string determines the digest component. -/
theorem signedStringOf_digest_inj (method pathname host date d1 d2 : Str)
    (h : signedStringOf method pathname host date (some d1) =
         signedStringOf method pathname host date (some d2)) : d1 = d2 := by
  simp only [signedStringOf] at h
  have h1 := List.append_cancel_left h
  exact List.append_cancel_left h1

/-- The digest string determines the payload (ideal collision-free
hash). -/
theorem digestOf_inj (p1 p2 : Str) (h : digestOf p1 = digestOf p2) : p1 = p2 := by
  simp only [digestOf] at h
  exact escEnc_inj _ _ (List.append_cancel_left h)

/-- C1: a `SignatureHeader` produced by `sign`, fed through `verify`'s
signed-string reconstruction on a request carrying the same method,
path, host, date and digest headers, with the matching public key
resolved for its `keyId`, verifies as `true`; and when a digest is
present, a request whose digest header reflects any change of the
payload (`p' ≠ p`) makes verification return `false`. -/
theorem c1_sign_verify_roundtrip
    (parseUrl : Str → Str × Str) (fetchPK : Option Str → Except Str JVal)
    (confUrl priv date url host pathname method baseUrl path : Str)
    (uid : Int) (payload? : Option Str) (p p' : Str) (pk : JVal) (hdr : SignatureHeader)
    (hparse : parseUrl url = (host, pathname))
    (huid : 0 ≤ uid)
    (hsig : sign parseUrl confUrl priv date uid url payload? = .ok hdr)
    (hK : ',' ∉ keyIdOf confUrl uid)
    (hm : strToLower method = (if payload?.isSome then str "post" else str "get"))
    (hpath : baseUrl ++ path = pathname)
    (hres : fetchPK (some (keyIdOf confUrl uid)) = .ok pk)
    (hpem : jGet pk (str "publicKeyPem") = some (.jstr (derivePublic priv))) :
    (verify fetchPK (mkVReq method baseUrl path host date hdr.digest hdr.signature)).1 = .ok true
    ∧ (payload? = some p → p' ≠ p →
        (verify fetchPK
          (mkVReq method baseUrl path host date (some (digestOf p')) hdr.signature)).1 =
          .ok false) := by
  have hs := sign_ok parseUrl confUrl priv date uid url payload? huid
  rw [hparse] at hs
  rw [hsig] at hs
  injection hs with hhdr
  have hdig : hdr.digest = payload?.map digestOf := by rw [hhdr]
  have hsgn : hdr.signature =
      sigHeaderValue (keyIdOf confUrl uid) (headersListOf payload?.isSome)
        (cryptoSign priv
          (signedStringOf (if payload?.isSome then str "post" else str "get")
            pathname host date (payload?.map digestOf))) := by rw [hhdr]
  clear hhdr hsig
  cases payload? with
  | some q =>
    simp only [Option.isSome_some, Option.map_some', if_true] at hm hdig hsgn
    rw [hdig, hsgn]
    have hH : ',' ∉ headersListOf true := by decide
    have hS : ',' ∉ cryptoSign priv
        (signedStringOf (str "post") pathname host date (some (digestOf q))) :=
      cryptoSign_comma_free _ _
    constructor
    · rw [verify_eval fetchPK
          (mkVReq method baseUrl path host date (some (digestOf q))
            (sigHeaderValue (keyIdOf confUrl uid) (headersListOf true)
              (cryptoSign priv (signedStringOf (str "post") pathname host date
                (some (digestOf q))))))
          (keyIdOf confUrl uid) (headersListOf true)
          (cryptoSign priv (signedStringOf (str "post") pathname host date
            (some (digestOf q)))) pk (derivePublic priv)
          rfl rfl hK hH hS hres hpem]
      have hb : buildSignedString
          (mkVReq method baseUrl path host date (some (digestOf q))
            (sigHeaderValue (keyIdOf confUrl uid) (headersListOf true)
              (cryptoSign priv (signedStringOf (str "post") pathname host date
                (some (digestOf q))))))
          (headersListOf true) =
          signedStringOf (str "post") pathname host date (some (digestOf q)) := by
        rw [show headersListOf true = str "(request-target) host date digest" from rfl]
        rw [buildSignedString_digest, hm, hpath]
      rw [hb, cryptoVerify_sign_self]
    · intro hpq hne
      injection hpq with hqp
      subst hqp
      rw [verify_eval fetchPK
          (mkVReq method baseUrl path host date (some (digestOf p'))
            (sigHeaderValue (keyIdOf confUrl uid) (headersListOf true)
              (cryptoSign priv (signedStringOf (str "post") pathname host date
                (some (digestOf q))))))
          (keyIdOf confUrl uid) (headersListOf true)
          (cryptoSign priv (signedStringOf (str "post") pathname host date
            (some (digestOf q)))) pk (derivePublic priv)
          rfl rfl hK hH hS hres hpem]
      have hb : buildSignedString
          (mkVReq method baseUrl path host date (some (digestOf p'))
            (sigHeaderValue (keyIdOf confUrl uid) (headersListOf true)
              (cryptoSign priv (signedStringOf (str "post") pathname host date
                (some (digestOf q))))))
          (headersListOf true) =
          signedStringOf (str "post") pathname host date (some (digestOf p')) := by
        rw [show headersListOf true = str "(request-target) host date digest" from rfl]
        rw [buildSignedString_digest, hm, hpath]
      rw [hb]
      have hMne : signedStringOf (str "post") pathname host date (some (digestOf p')) ≠
          signedStringOf (str "post") pathname host date (some (digestOf q)) := by
        intro heq
        exact hne (digestOf_inj _ _ (signedStringOf_digest_inj _ _ _ _ _ _ heq))
      rw [cryptoVerify_sign_ne priv _ _ hMne]
  | none =>
    simp only [Option.isSome_none, Option.map_none', Bool.false_eq_true, if_false]
      at hm hdig hsgn
    rw [hdig, hsgn]
    have hH : ',' ∉ headersListOf false := by decide
    have hS : ',' ∉ cryptoSign priv (signedStringOf (str "get") pathname host date none) :=
      cryptoSign_comma_free _ _
    constructor
    · rw [verify_eval fetchPK
          (mkVReq method baseUrl path host date none
            (sigHeaderValue (keyIdOf confUrl uid) (headersListOf false)
              (cryptoSign priv (signedStringOf (str "get") pathname host date none))))
          (keyIdOf confUrl uid) (headersListOf false)
          (cryptoSign priv (signedStringOf (str "get") pathname host date none))
          pk (derivePublic priv) rfl rfl hK hH hS hres hpem]
      have hb : buildSignedString
          (mkVReq method baseUrl path host date none
            (sigHeaderValue (keyIdOf confUrl uid) (headersListOf false)
              (cryptoSign priv (signedStringOf (str "get") pathname host date none))))
          (headersListOf false) =
          signedStringOf (str "get") pathname host date none := by
        rw [show headersListOf false = str "(request-target) host date" from rfl]
        rw [buildSignedString_plain, hm, hpath]
      rw [hb, cryptoVerify_sign_self]
    · intro hpq
      exact absurd hpq (by simp)

set_option maxRecDepth 40000 in
theorem c1_witness :
    (verify tFetch (mkVReq (str "POST") (str "") (str "/p") (str "h") (str "d")
        tHdr.digest tHdr.signature)).1 = .ok true
    ∧ (some (str "y") = some (str "y") → str "z" ≠ str "y" →
        (verify tFetch (mkVReq (str "POST") (str "") (str "/p") (str "h") (str "d")
          (some (digestOf (str "z"))) tHdr.signature)).1 = .ok false) :=
  c1_sign_verify_roundtrip tURL tFetch (str "u") (str "k") (str "d") (str "x") (str "h")
    (str "/p") (str "POST") (str "") (str "/p") 1 (some (str "y")) (str "y") (str "z")
    (.jobj [(str "publicKeyPem", .jstr (derivePublic (str "k")))]) tHdr
    rfl (by decide) rfl (by decide) (by decide) rfl rfl rfl

/-- C2: the claim says `verify` never throws to its caller, treating a
malformed signature header value as a verification failure.  The code
violates this: the header parsing of index.js lines 125–131 and the
`headers.split(' ')` of line 134 run before the `try` of line 145, so
a signature header whose parsed fields lack `headers` (here the value
`keyId="abc"`) makes line 134 read `.split` of `undefined` and the
resulting `TypeError` escapes `verify`. -/
theorem c2_verify_throws_on_malformed_header :
    verify tFetch
      { method := str "POST", baseUrl := [], path := [],
        headers := [(str "signature", str "keyId=\"abc\"")] } =
      (.error (str "TypeError: Cannot read properties of undefined (reading 'split')"), []) := by
  decide

/-- C3: a request whose header map has no `signature` key makes
`verify` return `false` for every possible key resolver, with an empty
key-fetch trace: no network call is performed. -/
theorem c3_no_signature_no_fetch (fetchPK : Option Str → Except Str JVal) (req : Req)
    (h : hdrHas req.headers (str "signature") = false) :
    verify fetchPK req = (.ok false, []) := by
  simp [verify, h]

theorem c3_witness :
    hdrHas ([] : List (Str × Str)) (str "signature") = false ∧
    verify tFetch { method := str "GET", baseUrl := [], path := [], headers := [] } =
      (.ok false, []) :=
  ⟨rfl, c3_no_signature_no_fetch tFetch
    { method := str "GET", baseUrl := [], path := [], headers := [] } rfl⟩

/-- C4: for a valid identity, `sign` builds the signing string as
`(request-target): <method> <path>`, `host: <host>`, `date: <date>`
joined by newlines, with method `post` exactly when a payload is
present and `get` otherwise; with a payload it appends
`digest: sha-256=<base64(sha256(serialized payload))>` and signs the
header list `(request-target) host date digest`, otherwise the list is
`(request-target) host date`. -/
theorem c4_sign_signing_string (parseUrl : Str → Str × Str)
    (confUrl priv date url host pathname : Str) (uid : Int) (payload : Option Str)
    (huid : 0 ≤ uid) (hparse : parseUrl url = (host, pathname)) :
    sign parseUrl confUrl priv date uid url payload = .ok
      { date := date,
        digest := (match payload with
                   | some p => some (str "sha-256=" ++ escEnc p)
                   | none => none),
        signature := sigHeaderValue (keyIdOf confUrl uid)
          (if payload.isSome then str "(request-target) host date digest"
           else str "(request-target) host date")
          (cryptoSign priv
            ((str "(request-target): " ++ (if payload.isSome then str "post" else str "get")
                ++ str " " ++ pathname ++ str "\nhost: " ++ host ++ str "\ndate: " ++ date)
              ++ (match payload with
                  | some p => str "\ndigest: " ++ (str "sha-256=" ++ escEnc p)
                  | none => []))) } := by
  rw [sign_ok parseUrl confUrl priv date uid url payload huid, hparse]
  cases payload <;> simp [digestOf, headersListOf, signedStringOf]

theorem c4_witness :
    sign tURL (str "u") (str "k") (str "d") 1 (str "x") (some (str "y")) = .ok
      { date := str "d",
        digest := some (str "sha-256=" ++ escEnc (str "y")),
        signature := sigHeaderValue (keyIdOf (str "u") 1)
          (str "(request-target) host date digest")
          (cryptoSign (str "k")
            ((str "(request-target): " ++ str "post" ++ str " " ++ str "/p"
                ++ str "\nhost: " ++ str "h" ++ str "\ndate: " ++ str "d")
              ++ (str "\ndigest: " ++ (str "sha-256=" ++ escEnc (str "y"))))) } :=
  c4_sign_signing_string tURL (str "u") (str "k") (str "d") (str "x") (str "h") (str "/p")
    1 (some (str "y")) (by decide) rfl

/-! ## Dispatcher envelope -/

theorem find?_match_append (p : Str × JVal → Bool) (l1 l2 : List (Str × JVal)) :
    List.find? p (l1 ++ l2) =
      match List.find? p l1 with
      | some v => some v
      | none => List.find? p l2 := by
  induction l1 with
  | nil => simp
  | cons x xs ih =>
    by_cases hp : p x
    · simp [List.find?_cons_of_pos _ hp]
    · simp only [List.cons_append, List.find?_cons_of_neg _ hp, ih]

/-- C5: the envelope of `send` injects `@context` and `actor` as
defaults only — a field explicitly present in the caller-supplied
payload (including `actor` or `@context`) keeps its caller-supplied
value, while the injected defaults fill the fields only when the
payload lacks them. -/
theorem c5_envelope_precedence (confUrl : Str) (uid : Int) (payload : JObj)
    (k : Str) (v : JVal) :
    (jassocLast payload k = some v →
      jassocLast (sendEnvelope confUrl uid payload) k = some v)
    ∧ (jassocLast payload (str "actor") = none →
        jassocLast (sendEnvelope confUrl uid payload) (str "actor") =
          some (.jstr (confUrl ++ str "/uid/" ++ (toString uid).data)))
    ∧ (jassocLast payload (str "@context") = none →
        jassocLast (sendEnvelope confUrl uid payload) (str "@context") =
          some (.jstr (str "https://www.w3.org/ns/activitystreams"))) := by
  refine ⟨?_, ?_, ?_⟩
  · intro h
    rcases Option.map_eq_some'.mp h with ⟨a, ha, hv⟩
    simp only [jassocLast, sendEnvelope, List.reverse_append]
    rw [find?_match_append, ha]
    simp [hv]
  · intro h
    have hn : List.find? (fun p => p.1 == str "actor") payload.reverse = none := by
      rcases hfind : List.find? (fun p => p.1 == str "actor") payload.reverse with _ | a
      · exact hfind
      · rw [jassocLast, hfind] at h
        simp at h
    simp only [jassocLast, sendEnvelope, List.reverse_append]
    rw [find?_match_append, hn]
    rfl
  · intro h
    have hn : List.find? (fun p => p.1 == str "@context") payload.reverse = none := by
      rcases hfind : List.find? (fun p => p.1 == str "@context") payload.reverse with _ | a
      · exact hfind
      · rw [jassocLast, hfind] at h
        simp at h
    simp only [jassocLast, sendEnvelope, List.reverse_append]
    rw [find?_match_append, hn]
    rfl

theorem c5_witness :
    jassocLast [(str "actor", JVal.jstr (str "X"))] (str "actor") =
        some (JVal.jstr (str "X")) ∧
    jassocLast (sendEnvelope (str "u") 1 [(str "actor", JVal.jstr (str "X"))]) (str "actor") =
      some (JVal.jstr (str "X")) :=
  ⟨rfl, (c5_envelope_precedence (str "u") 1 [(str "actor", JVal.jstr (str "X"))]
    (str "actor") (JVal.jstr (str "X"))).1 rfl⟩

/-! ## Inbox resolution -/

theorem mem_setAdd (l : List Str) (x y : Str) : y ∈ setAdd l x ↔ y ∈ l ∨ y = x := by
  by_cases h : x ∈ l
  · simp only [setAdd, if_pos h]
    exact ⟨Or.inl, fun h2 => h2.elim id (fun e => e ▸ h)⟩
  · simp [setAdd, h]

theorem nodup_setAdd (l : List Str) (x : Str) (h : l.Nodup) : (setAdd l x).Nodup := by
  by_cases hx : x ∈ l
  · simpa [setAdd, hx] using h
  · simp [setAdd, hx, List.nodup_append, h]

theorem resolveInboxes_go_mem (fields : Nat → UserFields) (ids : List Nat)
    (acc : List Str) (x : Str) :
    (x ∈ ids.foldl
        (fun inboxes id =>
          match preferredInbox (fields id) with
          | some y => setAdd inboxes y
          | none => inboxes)
        acc) ↔
      x ∈ acc ∨ ∃ id ∈ ids, preferredInbox (fields id) = some x := by
  induction ids generalizing acc with
  | nil => simp
  | cons i is ih =>
    simp only [List.foldl_cons]
    rw [ih]
    cases hp : preferredInbox (fields i) with
    | none => simp [hp]
    | some y =>
      rw [mem_setAdd]
      simp only [hp, List.mem_cons]
      constructor
      · rintro ((hx | rfl) | hrest)
        · exact Or.inl hx
        · exact Or.inr ⟨i, Or.inl rfl, hp⟩
        · rcases hrest with ⟨id, hid, hpref⟩
          exact Or.inr ⟨id, Or.inr hid, hpref⟩
      · rintro (hx | ⟨id, hid | hid, hpref⟩)
        · exact Or.inl (Or.inl hx)
        · subst hid
          rw [hp] at hpref
          injection hpref with hy
          exact Or.inl (Or.inr hy.symm)
        · exact Or.inr ⟨id, hid, hpref⟩

theorem resolveInboxes_go_nodup (fields : Nat → UserFields) (ids : List Nat)
    (acc : List Str) (h : acc.Nodup) :
    (ids.foldl
        (fun inboxes id =>
          match preferredInbox (fields id) with
          | some y => setAdd inboxes y
          | none => inboxes)
        acc).Nodup := by
  induction ids generalizing acc with
  | nil => simpa
  | cons i is ih =>
    simp only [List.foldl_cons]
    cases hp : preferredInbox (fields i) with
    | none => exact ih acc h
    | some y => exact ih (setAdd acc y) (nodup_setAdd acc y h)

/-- C6: `resolveInboxes` contributes, per identifier, its
`sharedInbox` when present, else its `inbox` when present, else
nothing, and the returned collection is duplicate-free; two
identifiers sharing the same `sharedInbox` contribute exactly one
delivery endpoint. -/
theorem c6_resolveInboxes_dedup (fields : Nat → UserFields) (ids : List Nat) :
    (resolveInboxes fields ids).Nodup
    ∧ (∀ x, x ∈ resolveInboxes fields ids ↔
        ∃ id ∈ ids, preferredInbox (fields id) = some x)
    ∧ (∀ i j u, (fields i).sharedInbox = some u → (fields j).sharedInbox = some u →
        resolveInboxes fields [i, j] = [u]) := by
  refine ⟨resolveInboxes_go_nodup fields ids [] (by simp), fun x => ?_, ?_⟩
  · rw [resolveInboxes, resolveInboxes_go_mem]
    simp
  · intro i j u h1 h2
    have p1 : preferredInbox (fields i) = some u := by rw [preferredInbox, h1]
    have p2 : preferredInbox (fields j) = some u := by rw [preferredInbox, h2]
    simp [resolveInboxes, p1, p2, setAdd]

theorem c6_witness : resolveInboxes tFields [0, 1] = [str "S"] :=
  (c6_resolveInboxes_dedup tFields [0, 1]).2.2 0 1 (str "S") rfl rfl

/-! ## Dispatcher failure policy -/

theorem firstError_ok_iff (l : List (Except Str Unit)) :
    firstError l = .ok () ↔ ∀ e ∈ l, e = .ok () := by
  induction l with
  | nil => simp [firstError]
  | cons e rest ih =>
    cases e with
    | ok u =>
      cases u
      simp [firstError, ih]
    | error msg => simp [firstError]

theorem firstError_error (l : List (Except Str Unit)) (m : Str)
    (hall : ∀ e ∈ l, e = .ok () ∨ e = .error m)
    (hne : ¬∀ e ∈ l, e = .ok ()) :
    firstError l = .error m := by
  induction l with
  | nil => exact absurd (by simp) hne
  | cons e rest ih =>
    rcases hall e (List.mem_cons_self e rest) with he | he
    · subst he
      rw [show firstError (Except.ok () :: rest) = firstError rest from rfl]
      refine ih (fun x hx => hall x (List.mem_cons_of_mem _ hx)) (fun hr => hne ?_)
      intro x hx
      rcases List.mem_cons.mp hx with rfl | hx2
      · rfl
      · exact hr x hx2
    · subst he
      rfl

/-- C7: if any resolved destination's POST yields a non-2xx response,
`send` rejects with the `activity-failed` error (never silently
swallowed), succeeds exactly when every destination answered 2xx, and
every resolved destination is POSTed regardless of sibling failures
(deliveries are not retracted). -/
theorem c7_send_failure_policy (fields : Nat → UserFields) (stringify : JObj → Str)
    (parseUrl : Str → Str × Str) (net : Str → Nat) (confUrl priv date : Str)
    (uid : Int) (targets : List Nat) (payload : JObj) (huid : 0 ≤ uid) :
    (send fields stringify parseUrl net confUrl priv date uid targets payload).2 =
        resolveInboxes fields targets
    ∧ ((send fields stringify parseUrl net confUrl priv date uid targets payload).1 =
          .ok () ↔
        ∀ uri ∈ resolveInboxes fields targets, statusStartsWith2 (net uri) = true)
    ∧ ((∃ uri ∈ resolveInboxes fields targets, statusStartsWith2 (net uri) = false) →
        (send fields stringify parseUrl net confUrl priv date uid targets payload).1 =
          .error (str "activity-failed")) := by
  have hsend : send fields stringify parseUrl net confUrl priv date uid targets payload =
      (firstError ((resolveInboxes fields targets).map
          (fun uri => if statusStartsWith2 (net uri) then Except.ok ()
                      else Except.error (str "activity-failed"))),
       resolveInboxes fields targets) := by
    rw [send]
    have hmap : (resolveInboxes fields targets).map
        (fun uri =>
          match sign parseUrl confUrl priv date uid uri
              (some (stringify (sendEnvelope confUrl uid payload))) with
          | .error e => (uri, Except.error e, false)
          | .ok _ =>
            (uri,
             if statusStartsWith2 (net uri) then Except.ok ()
             else Except.error (str "activity-failed"),
             true)) =
        (resolveInboxes fields targets).map
          (fun uri =>
            (uri,
             if statusStartsWith2 (net uri) then Except.ok ()
             else Except.error (str "activity-failed"),
             true)) := by
      refine List.map_eq_map_iff.mpr (fun uri _ => ?_)
      rw [sign_ok parseUrl confUrl priv date uid uri _ huid]
    rw [hmap]
    simp only [Prod.mk.injEq]
    refine ⟨?_, ?_⟩
    · rw [List.map_map]
      rfl
    · rw [List.filter_eq_self.mpr (by
        intro a ha
        rcases List.mem_map.mp ha with ⟨uri, _, rfl⟩
        rfl)]
      rw [List.map_map]
      show List.map (fun uri : Str => uri) (resolveInboxes fields targets) =
        resolveInboxes fields targets
      simp
  rw [hsend]
  refine ⟨rfl, ?_, ?_⟩
  · rw [firstError_ok_iff]
    constructor
    · intro hall uri hu
      have := hall _ (List.mem_map.mpr ⟨uri, hu, rfl⟩)
      by_cases hs : statusStartsWith2 (net uri)
      · exact hs
      · rw [if_neg hs] at this
        exact absurd this (by simp)
    · intro hall e he
      rcases List.mem_map.mp he with ⟨uri, hu, rfl⟩
      rw [hall uri hu]
      rfl
  · rintro ⟨uri, hu, hbad⟩
    refine firstError_error _ _ (fun e he => ?_) (fun hall => ?_)
    · rcases List.mem_map.mp he with ⟨u2, _, rfl⟩
      by_cases hs : statusStartsWith2 (net u2)
      · exact Or.inl (by rw [if_pos hs])
      · exact Or.inr (by rw [if_neg hs])
    · have := hall _ (List.mem_map.mpr ⟨uri, hu, rfl⟩)
      rw [hbad] at this
      simp at this

theorem c7_witness :
    (send tFields tStringify tURL (fun _ => 404) (str "u") (str "k") (str "d") 1 [0, 1]
        []).2 = resolveInboxes tFields [0, 1]
    ∧ ((send tFields tStringify tURL (fun _ => 404) (str "u") (str "k") (str "d") 1 [0, 1]
          []).1 = .ok () ↔
        ∀ uri ∈ resolveInboxes tFields [0, 1], statusStartsWith2 ((fun _ => 404) uri) = true)
    ∧ ((∃ uri ∈ resolveInboxes tFields [0, 1],
          statusStartsWith2 ((fun _ => 404) uri) = false) →
        (send tFields tStringify tURL (fun _ => 404) (str "u") (str "k") (str "d") 1 [0, 1]
            []).1 = .error (str "activity-failed")) :=
  c7_send_failure_policy tFields tStringify tURL (fun _ => 404) (str "u") (str "k")
    (str "d") 1 [0, 1] [] (by decide)

/-! ## Remote key resolution failure -/

set_option maxRecDepth 10000 in
/-- For three-digit status codes the source
`String(statusCode).startsWith('2')` test is exactly the 2xx range. -/
theorem status2_range : ∀ s : Nat, s < 1000 → 100 ≤ s →
    (statusStartsWith2 s = true ↔ (200 ≤ s ∧ s ≤ 299)) := by decide

/-- C8 counterexample: the claim reads "fetchPublicKey fails with a
public-key-not-found error exactly when the GET response status is
non-2xx or the response body lacks a publicKey field".  A 2xx response
whose pre-parsed JSON body is `null` has no `publicKey` field, yet
`fetchPublicKey` does not fail with the not-found error: the
`body.hasOwnProperty('publicKey')` call of index.js line 72 itself
throws on `null`, so the rejection is a `TypeError`. -/
theorem c8_counterexample :
    jGet JVal.null (str "publicKey") = none
    ∧ fetchPublicKey (fun _ => .ok { statusCode := 200, body := JVal.null }) (str "x") ≠
        .error (str "[[error:activitypub.pubKey-not-found]]")
    ∧ fetchPublicKey (fun _ => .ok { statusCode := 200, body := JVal.null }) (str "x") =
        .error (str "TypeError: Cannot read properties of null (reading 'hasOwnProperty')") := by
  refine ⟨rfl, ?_, rfl⟩
  intro h
  rw [show fetchPublicKey (fun _ => .ok { statusCode := 200, body := JVal.null }) (str "x") =
      .error (str "TypeError: Cannot read properties of null (reading 'hasOwnProperty')")
    from rfl] at h
  injection h with h2
  exact absurd h2 (by decide)

/-- C8 (amended): `fetchPublicKey` fails with the `pubKey-not-found`
error exactly when the response status is non-2xx or the property
check on the body succeeds and reports no `publicKey` field; when the
check succeeds and finds the field it returns the body's `publicKey`;
a 2xx response whose body is JSON `null` instead rejects with the
`TypeError` thrown by the `hasOwnProperty` call itself; and the
Verifier catches a key-resolution error internally and still returns
`false` rather than propagating it. -/
theorem c8_fetchPublicKey_spec (net : Str → Except Str HttpRes) (uri : Str) (r : HttpRes)
    (hnet : net uri = .ok r) (h1 : 100 ≤ r.statusCode) (h2 : r.statusCode ≤ 999) :
    (fetchPublicKey net uri = .error (str "[[error:activitypub.pubKey-not-found]]") ↔
      (¬(200 ≤ r.statusCode ∧ r.statusCode ≤ 299) ∨
        jHasOwn r.body (str "publicKey") = .ok false))
    ∧ ((200 ≤ r.statusCode ∧ r.statusCode ≤ 299) →
        jHasOwn r.body (str "publicKey") = .ok true →
        fetchPublicKey net uri = .ok ((jGet r.body (str "publicKey")).getD .null))
    ∧ ((200 ≤ r.statusCode ∧ r.statusCode ≤ 299) → r.body = JVal.null →
        fetchPublicKey net uri =
          .error (str "TypeError: Cannot read properties of null (reading 'hasOwnProperty')"))
    ∧ (∀ (req : Req) (K H S e : Str),
        hdrHas req.headers (str "signature") = true →
        hdrGet req.headers (str "signature") = some (sigHeaderValue K H S) →
        ',' ∉ K → ',' ∉ H → ',' ∉ S →
        fetchPublicKey net K = .error e →
        verify (verifierResolver net) req = (.ok false, [some K])) := by
  have hs2 := status2_range r.statusCode (by omega) h1
  have hne : str "TypeError: Cannot read properties of null (reading 'hasOwnProperty')" ≠
      str "[[error:activitypub.pubKey-not-found]]" := by decide
  refine ⟨?_, ?_, ?_, ?_⟩
  · rw [fetchPublicKey, hnet, ← hs2]
    by_cases hb : statusStartsWith2 r.statusCode
    · cases hbody : r.body with
      | null => simp [hb, hbody, jHasOwn, hne]
      | jstr s => simp [hb, hbody, jHasOwn]
      | jobj fs =>
        cases ha : fs.any (fun p => p.1 == str "publicKey") <;>
          simp [hb, hbody, jHasOwn, ha]
    · simp [hb]
  · intro hr hj
    simp [fetchPublicKey, hnet, hs2.mpr hr, hj]
  · intro hr hbody
    simp [fetchPublicKey, hnet, hs2.mpr hr, hbody, jHasOwn]
  · intro req K H S e hhas hsig hK hH hS hferr
    exact verify_fetch_error (verifierResolver net) req K H S e hhas hsig hK hH hS
      (by rw [show verifierResolver net (some K) = fetchPublicKey net K from rfl, hferr])

theorem c8_witness :
    ((fetchPublicKey (fun _ => .ok { statusCode := 404, body := .jobj [] }) (str "x") =
        .error (str "[[error:activitypub.pubKey-not-found]]") ↔
      (¬(200 ≤ 404 ∧ 404 ≤ 299) ∨
        jHasOwn (JVal.jobj []) (str "publicKey") = .ok false)))
    ∧ (200 ≤ 200 ∧ 200 ≤ 299 → JVal.null = JVal.null →
        fetchPublicKey (fun _ => .ok { statusCode := 200, body := JVal.null }) (str "x") =
          .error (str "TypeError: Cannot read properties of null (reading 'hasOwnProperty')"))
    ∧ verify (verifierResolver (fun _ => .ok { statusCode := 404, body := .jobj [] }))
        { method := str "POST", baseUrl := [], path := [],
          headers := [(str "signature",
            sigHeaderValue (str "k1") (str "(request-target) host date") (str "sig"))] } =
        (.ok false, [some (str "k1")]) := by
  have h404 := c8_fetchPublicKey_spec (fun _ => .ok { statusCode := 404, body := .jobj [] })
    (str "x") { statusCode := 404, body := .jobj [] } rfl (by decide) (by decide)
  have h200 := c8_fetchPublicKey_spec (fun _ => .ok { statusCode := 200, body := JVal.null })
    (str "x") { statusCode := 200, body := JVal.null } rfl (by decide) (by decide)
  refine ⟨h404.1, h200.2.2.1, ?_⟩
  exact h404.2.2.2
    { method := str "POST", baseUrl := [], path := [],
      headers := [(str "signature",
        sigHeaderValue (str "k1") (str "(request-target) host date") (str "sig"))] }
    (str "k1") (str "(request-target) host date") (str "sig")
    (str "[[error:activitypub.pubKey-not-found]]")
    rfl rfl (by decide) (by decide) (by decide) rfl

/-! ## Keystore -/

/-- C9: repeated key lookups observe a single stable keypair: key
material that exists is never replaced, and on a lookup miss the lazy
generation persists one pair whose halves the two accessors then both
return; a second lookup reads the persisted pair instead of generating
a new one. -/
theorem c9_keystore_stable (gen : Nat → Keypair) (db : Db) (uid : Nat) :
    (∀ kp, db uid = some kp →
      getPublicKey gen uid db = (kp.publicKey, db) ∧
      getPrivateKey gen uid db = (kp.privateKey, db))
    ∧ (db uid = none →
        getPublicKey gen uid db = ((gen uid).publicKey, (generateKeys gen uid db).2)
        ∧ (generateKeys gen uid db).2 uid = some (gen uid)
        ∧ getPrivateKey gen uid (generateKeys gen uid db).2 =
            ((gen uid).privateKey, (generateKeys gen uid db).2)
        ∧ getPublicKey gen uid (generateKeys gen uid db).2 =
            ((gen uid).publicKey, (generateKeys gen uid db).2)) := by
  constructor
  · intro kp h
    constructor <;> simp [getPublicKey, getPrivateKey, h]
  · intro h
    have h2 : (generateKeys gen uid db).2 uid = some (gen uid) := by simp [generateKeys]
    refine ⟨?_, h2, ?_, ?_⟩
    · simp [getPublicKey, h, generateKeys]
    · simp [getPrivateKey, h2]
    · simp [getPublicKey, h2]

theorem c9_witness :
    getPublicKey tGen 7 tDb = ((tGen 7).publicKey, (generateKeys tGen 7 tDb).2)
    ∧ (generateKeys tGen 7 tDb).2 7 = some (tGen 7)
    ∧ getPrivateKey tGen 7 (generateKeys tGen 7 tDb).2 =
        ((tGen 7).privateKey, (generateKeys tGen 7 tDb).2)
    ∧ getPublicKey tGen 7 (generateKeys tGen 7 tDb).2 =
        ((tGen 7).publicKey, (generateKeys tGen 7 tDb).2) :=
  (c9_keystore_stable tGen tDb 7).2 rfl

/-! ## Authenticated fetch -/

/-- C10: `get` called with a negative requesting identity issues the
outbound GET with no signature headers at all (only the `Accept`
header), whereas every identity at or above zero — including the
anonymous identity 0 — gets a signed request carrying `date`,
`digest` and `signature` keys. -/
theorem c10_get_negative_unauthenticated (parseUrl : Str → Str × Str)
    (confUrl priv date uri : Str) (uid : Int) :
    (uid < 0 → apGetHeaders parseUrl confUrl priv date uid uri =
        .ok [(str "Accept", some acceptHeader)])
    ∧ (0 ≤ uid →
        apGetHeaders parseUrl confUrl priv date uid uri = .ok
          [(str "date", some date), (str "digest", none),
           (str "signature", some (sigHeaderValue (keyIdOf confUrl uid) (headersListOf false)
             (cryptoSign priv
               (signedStringOf (str "get") (parseUrl uri).2 (parseUrl uri).1 date none)))),
           (str "Accept", some acceptHeader)]) := by
  constructor
  · intro h
    have hn : ¬uid ≥ 0 := not_le.mpr h
    simp [apGetHeaders, hn]
  · intro h
    have hge : uid ≥ 0 := h
    simp [apGetHeaders, hge, sign_ok parseUrl confUrl priv date uid uri none h, Except.map]

theorem c10_witness :
    apGetHeaders tURL (str "u") (str "k") (str "d") (-1) (str "x") =
        .ok [(str "Accept", some acceptHeader)]
    ∧ apGetHeaders tURL (str "u") (str "k") (str "d") 0 (str "x") = .ok
        [(str "date", some (str "d")), (str "digest", none),
         (str "signature", some (sigHeaderValue (keyIdOf (str "u") 0) (headersListOf false)
           (cryptoSign (str "k")
             (signedStringOf (str "get") (tURL (str "x")).2 (tURL (str "x")).1
               (str "d") none)))),
         (str "Accept", some acceptHeader)] :=
  ⟨(c10_get_negative_unauthenticated tURL (str "u") (str "k") (str "d") (str "x")
      (-1)).1 (by decide),
   (c10_get_negative_unauthenticated tURL (str "u") (str "k") (str "d") (str "x")
      0).2 (by decide)⟩

end ActivityPub
